import Mathlib

/-!
Verification of the activity-scheduling repository.

Part 1 embeds the front-end logic of `src/front/front/src/App.jsx`
(zone table, transport speeds, `calculateTravelTime`, the four travel
matrices built in `handleCalculate`, the activity-list handlers and the
re-indexing performed before a request is sent).  Real-number arithmetic
of the JavaScript source is modelled over `ℝ`.

Part 2 models the optimization engine (Problem Encoder, Search Engine,
Objective Evaluator, Result Builder).  That code is not part of the
repository snapshot (only the front-end client is), so those
definitions are modelled from the specification, over `ℚ` so that
concrete scenarios can be evaluated.
-/

/-- The five fixed zone labels of the `ZONES` object in `App.jsx`. -/
inductive Zone
  | Centro
  | Norte
  | Sur
  | Este
  | Oeste
deriving DecidableEq

/-- One record of the `ZONES` table: coordinates and a display color. -/
structure ZoneInfo where
  x : ℝ
  y : ℝ
  color : String

/-- The `ZONES` table of `App.jsx` (coordinates in km, plus UI color). -/
def ZONES : Zone → ZoneInfo
  | Zone.Centro => ⟨0, 0, "#646cff"⟩
  | Zone.Norte => ⟨0, 15, "#4CAF50"⟩
  | Zone.Sur => ⟨0, -15, "#FF9800"⟩
  | Zone.Este => ⟨15, 0, "#E91E63"⟩
  | Zone.Oeste => ⟨-15, 0, "#9C27B0"⟩

/-- The three transport modes of the `TRANSPORT_TYPES` object. -/
inductive Transport
  | bicicleta
  | auto
  | transporte_publico
deriving DecidableEq

/-- One record of the `TRANSPORT_TYPES` table: speed (km/h), label, color. -/
structure TransportInfo where
  speed : ℝ
  label : String
  color : String

/-- The `TRANSPORT_TYPES` table of `App.jsx`. -/
def TRANSPORT_TYPES : Transport → TransportInfo
  | Transport.bicicleta => ⟨15, "Bicicleta", "#4CAF50"⟩
  | Transport.auto => ⟨40, "Auto", "#2196F3"⟩
  | Transport.transporte_publico => ⟨25, "Transporte Público", "#FF9800"⟩

/-- `calculateTravelTime` from `App.jsx`: 0 for a same-zone pair, otherwise
the Euclidean distance between the two zones' coordinates divided by the
mode's speed. -/
noncomputable def calculateTravelTime (zone1 zone2 : Zone) (transportType : Transport) : ℝ :=
  if zone1 = zone2 then 0
  else
    let z1 := ZONES zone1
    let z2 := ZONES zone2
    let dx := z1.x - z2.x
    let dy := z1.y - z2.y
    let distance := Real.sqrt (dx * dx + dy * dy)
    let speed := (TRANSPORT_TYPES transportType).speed
    distance / speed

/-- Modelled from the spec: "travel time between two zones under a mode =
Euclidean distance between their coordinates ÷ that mode's speed" (§6),
written without the same-zone short-circuit of the source, to be compared
with `calculateTravelTime`. -/
noncomputable def specTravelTime (zone1 zone2 : Zone) (transportType : Transport) : ℝ :=
  Real.sqrt (((ZONES zone1).x - (ZONES zone2).x) * ((ZONES zone1).x - (ZONES zone2).x) +
      ((ZONES zone1).y - (ZONES zone2).y) * ((ZONES zone1).y - (ZONES zone2).y)) /
    (TRANSPORT_TYPES transportType).speed

/-- An activity as held in the front-end `activities` state. -/
structure Activity where
  id : ℕ
  name : String
  value : ℝ
  duration : ℝ
  open_time : ℝ
  close_time : ℝ
  zone : Zone

instance : Inhabited Activity :=
  ⟨⟨0, "", 0, 0, 0, 0, Zone.Centro⟩⟩

/-- The `travelTimeBicicleta` matrix built in `handleCalculate`. -/
noncomputable def travelTimeBicicleta (activities : List Activity) : List (List ℝ) :=
  (List.range activities.length).map fun i =>
    (List.range activities.length).map fun j =>
      if i = j then 0
      else
        calculateTravelTime (activities.getD i default).zone (activities.getD j default).zone
          Transport.bicicleta

/-- The `travelTimeAuto` matrix built in `handleCalculate`. -/
noncomputable def travelTimeAuto (activities : List Activity) : List (List ℝ) :=
  (List.range activities.length).map fun i =>
    (List.range activities.length).map fun j =>
      if i = j then 0
      else
        calculateTravelTime (activities.getD i default).zone (activities.getD j default).zone
          Transport.auto

/-- The `travelTimeTransportePublico` matrix built in `handleCalculate`. -/
noncomputable def travelTimeTransportePublico (activities : List Activity) : List (List ℝ) :=
  (List.range activities.length).map fun i =>
    (List.range activities.length).map fun j =>
      if i = j then 0
      else
        calculateTravelTime (activities.getD i default).zone (activities.getD j default).zone
          Transport.transporte_publico

/-- The combined `travelTime` matrix built in `handleCalculate`: per
off-diagonal pair the minimum of the three per-mode matrix entries
(`Math.min` of the three already-built tables), 0 on the diagonal. -/
noncomputable def travelTime (activities : List Activity) : List (List ℝ) :=
  (List.range activities.length).map fun i =>
    (List.range activities.length).map fun j =>
      if i = j then 0
      else
        min (((travelTimeBicicleta activities).getD i []).getD j 0)
          (min (((travelTimeAuto activities).getD i []).getD j 0)
            (((travelTimeTransportePublico activities).getD i []).getD j 0))

/-- Entry (i, j) of a matrix represented as a list of rows. -/
def mEntry (M : List (List ℝ)) (i j : ℕ) : ℝ :=
  (M.getD i []).getD j 0

/-- A demonstration activity list (first two rows of the example dataset
in `handleLoadExampleActivities`). -/
noncomputable def demoActivities : List Activity :=
  [⟨0, "Desayuno", 3, 0.5, 7, 9, Zone.Centro⟩,
   ⟨1, "Gimnasio", 8, 1, 7, 11, Zone.Norte⟩]

/-- The `newActivity` form state: a field left empty in the UI is `none`
(the JS guard tests each field for falsiness before parsing). -/
structure NewActivityForm where
  name : String
  value : Option ℝ
  duration : Option ℝ
  open_time : Option ℝ
  close_time : Option ℝ
  zone : Zone

/-- The completeness guard at the top of `handleAddActivity` (the `zone`
select always holds a label, so it cannot be empty). -/
def formComplete (f : NewActivityForm) : Bool :=
  !(f.name == "") && f.value.isSome && f.duration.isSome && f.open_time.isSome &&
    f.close_time.isSome

/-- `handleAddActivity` from `App.jsx`: if the form is complete, append a
new activity whose id is the current list length. -/
noncomputable def handleAddActivity (activities : List Activity) (f : NewActivityForm) :
    List Activity :=
  if formComplete f then
    activities ++
      [⟨activities.length, f.name, f.value.getD 0, f.duration.getD 0, f.open_time.getD 0,
        f.close_time.getD 0, f.zone⟩]
  else activities

/-- `handleDeleteActivity` from `App.jsx`: remove every activity whose id
equals the given id. -/
noncomputable def handleDeleteActivity (activities : List Activity) (id : ℕ) : List Activity :=
  activities.filter fun act => act.id != id

/-- An activity as placed in the request body (no zone field). -/
structure RequestActivity where
  id : ℕ
  name : String
  value : ℝ
  duration : ℝ
  open_time : ℝ
  close_time : ℝ

/-- `reindexedActivities` from `handleCalculate`: ids are replaced by the
consecutive positions 0..n-1. -/
noncomputable def reindexedActivities (activities : List Activity) : List RequestActivity :=
  activities.mapIdx fun idx act =>
    ⟨idx, act.name, act.value, act.duration, act.open_time, act.close_time⟩

/-- A filled-in form used by the C4 counterexample. -/
noncomputable def filledForm (nm : String) : NewActivityForm :=
  ⟨nm, some 1, some 1, some 8, some 10, Zone.Centro⟩

/-- The UI list after the operation sequence add "A", add "B",
delete id 0, add "C", starting from the empty list. -/
noncomputable def uiListAfterOps : List Activity :=
  handleAddActivity
    (handleDeleteActivity (handleAddActivity (handleAddActivity [] (filledForm "A"))
      (filledForm "B")) 0)
    (filledForm "C")

namespace Engine

/-- Modelled from the spec: an activity as consumed by the optimization
core (§3, §6); the backend service itself is absent from the repository
snapshot, so the whole `Engine` namespace is reconstructed from the
specification's contract. -/
structure RawActivity where
  id : ℕ
  name : String
  value : ℚ
  duration : ℚ
  open_time : ℚ
  close_time : ℚ
deriving DecidableEq

/-- Modelled from the spec: the run configuration (§3 RunConfig): time
budget, weighting factor, and the discouraged transport mode label. -/
structure RunConfig where
  time_budget : ℚ
  weight : ℚ
  discouraged_mode : Transport
deriving DecidableEq

/-- Modelled from the spec: the per-activity validity conditions of the
Problem Encoder (§4.1): `open_time < close_time`, `duration > 0`, and
`duration` within the window. -/
def activityValid (a : RawActivity) : Bool :=
  decide (a.open_time < a.close_time) && decide (0 < a.duration) &&
    decide (a.duration ≤ a.close_time - a.open_time)

/-- Modelled from the spec: the RunConfig validity conditions of the
Problem Encoder (§4.1): `time_budget > 0` and `weight ≥ 0`. -/
def configValid (c : RunConfig) : Bool :=
  decide (0 < c.time_budget) && decide (0 ≤ c.weight)

/-- Modelled from the spec: the Validation-error taxonomy (§7), with the
offending field's owner identified. -/
inductive EncodeError
  | invalidActivity (id : ℕ)
  | invalidConfig
deriving DecidableEq

/-- Modelled from the spec: the immutable problem instance the Problem
Encoder produces on success (§4.1): the activity set with original ids,
the combined and discouraged-mode matrices, and the RunConfig. -/
structure ProblemInstance where
  acts : List RawActivity
  combined : ℕ → ℕ → ℚ
  discouraged : ℕ → ℕ → ℚ
  config : RunConfig

/-- Modelled from the spec: the Problem Encoder (§4.1).  It rejects, with
a Validation error naming the offender, any input containing an invalid
activity or an invalid RunConfig, and otherwise returns the problem
instance; being a pure function, it has no side effect beyond this
transformation. -/
def encodeProblem (acts : List RawActivity) (combined discouraged : ℕ → ℕ → ℚ)
    (cfg : RunConfig) : Except EncodeError ProblemInstance :=
  match acts.find? fun a => !activityValid a with
  | some a => Except.error (EncodeError.invalidActivity a.id)
  | none =>
    if configValid cfg then Except.ok ⟨acts, combined, discouraged, cfg⟩
    else Except.error EncodeError.invalidConfig

/-- Modelled from the spec: the internal search problem (§4.2 input).
Activities are addressed by position 0..n-1 (the Encoder reindexes);
`travel` is the combined matrix, `disc` the discouraged mode's matrix. -/
structure Problem where
  n : ℕ
  value : ℕ → ℚ
  dur : ℕ → ℚ
  openT : ℕ → ℚ
  closeT : ℕ → ℚ
  travel : ℕ → ℕ → ℚ
  disc : ℕ → ℕ → ℚ
  tmax : ℚ
  weight : ℚ

/-- Consecutive pairs of a sequence (the travelled edges). -/
def pairsOf : List ℕ → List (ℕ × ℕ)
  | [] => []
  | [_] => []
  | a :: b :: rest => (a, b) :: pairsOf (b :: rest)

/-- Modelled from the spec: the Objective Evaluator's accumulated value
(§4.3). -/
def totalValue (p : Problem) (s : List ℕ) : ℚ :=
  (s.map p.value).sum

/-- Modelled from the spec: total combined-matrix travel time actually
used between consecutive activities (§4.3). -/
def totalTravel (p : Problem) (s : List ℕ) : ℚ :=
  ((pairsOf s).map fun e => p.travel e.1 e.2).sum

/-- Modelled from the spec: accumulated discouraged-mode exposure over
the same consecutive pairs (§4.3). -/
def discExposure (p : Problem) (s : List ℕ) : ℚ :=
  ((pairsOf s).map fun e => p.disc e.1 e.2).sum

/-- Modelled from the spec: `objective = total_value − weight ×
discouraged exposure` (§4.3). -/
def objective (p : Problem) (s : List ℕ) : ℚ :=
  totalValue p s - p.weight * discExposure p s

/-- Wall-clock time after executing the remaining activities `qs`,
starting from activity `last` finished at wall-clock time `t`: each step
arrives at `t + travel`, waits until the activity opens if early, then
runs for its duration (§4.2 expansion). -/
def execFrom (p : Problem) (last : ℕ) (t : ℚ) : List ℕ → ℚ
  | [] => t
  | q :: qs => execFrom p q (max (t + p.travel last q) (p.openT q) + p.dur q) qs

/-- The wall-clock start of the first activity of a schedule: arrival at
clock 0, waiting until the activity opens (§4.2 start state). -/
def firstStart (p : Problem) : List ℕ → ℚ
  | [] => 0
  | q :: _ => max 0 (p.openT q)

/-- Wall-clock finish of the whole schedule (0 for the empty one). -/
def wallEnd (p : Problem) : List ℕ → ℚ
  | [] => 0
  | q :: qs => execFrom p q (max 0 (p.openT q) + p.dur q) qs

/-- Modelled from the spec: `final_time`, the elapsed time from the first
activity's start to the last activity's end, travel and waits included
(§3 RunConfig, §4.3). -/
def finalTime (p : Problem) (s : List ℕ) : ℚ :=
  wallEnd p s - firstStart p s

/-- Start times of the remaining activities `qs`, in order, continuing
from activity `last` finished at wall-clock time `t`. -/
def startsFrom (p : Problem) (last : ℕ) (t : ℚ) : List ℕ → List ℚ
  | [] => []
  | q :: qs =>
    max (t + p.travel last q) (p.openT q) ::
      startsFrom p q (max (t + p.travel last q) (p.openT q) + p.dur q) qs

/-- Wall-clock start times of a schedule's activities, in order. -/
def startTimes (p : Problem) : List ℕ → List ℚ
  | [] => []
  | q :: qs => max 0 (p.openT q) :: startsFrom p q (max 0 (p.openT q) + p.dur q) qs

/-- Waits before the remaining activities `qs` (arrival earlier than
`open_time` forces a wait of `start − arrival`). -/
def waitsFrom (p : Problem) (last : ℕ) (t : ℚ) : List ℕ → List ℚ
  | [] => []
  | q :: qs =>
    (max (t + p.travel last q) (p.openT q) - (t + p.travel last q)) ::
      waitsFrom p q (max (t + p.travel last q) (p.openT q) + p.dur q) qs

/-- Waits accrued between a schedule's activities (the wait before the
first activity precedes the elapsed-time window, which starts at the
first activity's start). -/
def waitTimes (p : Problem) : List ℕ → List ℚ
  | [] => []
  | q :: qs => waitsFrom p q (max 0 (p.openT q) + p.dur q) qs

/-- Modelled from the spec: legality of the expansion steps along the
remaining activities `qs` (§4.2): each step must finish within the
activity's window and keep the elapsed time (measured from the first
start `s`) within the budget. -/
def feasibleFrom (p : Problem) (last : ℕ) (s t : ℚ) : List ℕ → Bool
  | [] => true
  | q :: qs =>
    decide (max (t + p.travel last q) (p.openT q) + p.dur q ≤ p.closeT q) &&
      decide (max (t + p.travel last q) (p.openT q) + p.dur q - s ≤ p.tmax) &&
      feasibleFrom p q s (max (t + p.travel last q) (p.openT q) + p.dur q) qs

/-- Modelled from the spec: a schedule is legal iff every expansion step
that builds it is legal (§4.2); the empty schedule always is. -/
def feasible (p : Problem) : List ℕ → Bool
  | [] => true
  | q :: qs =>
    decide (max 0 (p.openT q) + p.dur q ≤ p.closeT q) &&
      decide (max 0 (p.openT q) + p.dur q - max 0 (p.openT q) ≤ p.tmax) &&
      feasibleFrom p q (max 0 (p.openT q)) (max 0 (p.openT q) + p.dur q) qs

/-- All duplicate-free sequences drawn from `avail`, produced by choosing
a next activity and recursing on the rest; with enough fuel this
enumerates every order-relevant subset, i.e. the schedules the best-first
search of §4.2 can reach before the frontier is exhausted. -/
def seqsFrom (avail : List ℕ) : ℕ → List (List ℕ)
  | 0 => [[]]
  | fuel + 1 =>
    [] :: avail.flatMap fun q => (seqsFrom (avail.erase q) fuel).map fun s => q :: s

/-- Modelled from the spec: the candidate schedules over activities
0..n-1 (§4.2: every legal schedule, the empty one included, is a
candidate solution). -/
def candidates (p : Problem) : List (List ℕ) :=
  seqsFrom (List.range p.n) p.n

/-- Modelled from the spec: the comparison key realizing §4.2's output
rule and tie-breaks — maximal objective, then minimal elapsed time, then
lexicographically smallest id sequence ("full determinism"). Smaller key
means better schedule. -/
def schedKey (p : Problem) (s : List ℕ) : ℚ ×ₗ ℚ ×ₗ List ℕ :=
  toLex (-objective p s, toLex (finalTime p s, s))

/-- Keep the better of an incumbent `a` and a challenger `b`. -/
def chooseBest (p : Problem) (a b : List ℕ) : List ℕ :=
  if schedKey p b < schedKey p a then b else a

/-- Modelled from the spec: the Search Engine's result (§4.2): the best
feasible schedule under the deterministic comparator, the empty schedule
being the always-available fallback.  The node-expansion safety bound is
not modelled: the frontier is explored to exhaustion, which §4.2
guarantees terminates. -/
def runSearch (p : Problem) : List ℕ :=
  ((candidates p).filter fun s => feasible p s).foldl (chooseBest p) []

/-- Modelled from the spec: the response shape produced by the Result
Builder (§6): the four Evaluator metrics, the objective, and the ordered
route. -/
structure EngineResponse where
  total_value : ℚ
  total_travel_cost : ℚ
  penalized_travel_cost : ℚ
  final_time : ℚ
  objective : ℚ
  route : List ℕ
deriving DecidableEq

/-- Modelled from the spec: the Result Builder (§4.4): attach the
Evaluator metrics to the winning schedule, in its chronological order. -/
def buildResult (p : Problem) (s : List ℕ) : EngineResponse :=
  ⟨totalValue p s, totalTravel p s, discExposure p s, finalTime p s, objective p s, s⟩

/-- Modelled from the spec: one full engine run on an encoded problem. -/
def runEngine (p : Problem) : EngineResponse :=
  buildResult p (runSearch p)

end Engine

/-- A well-formed single-activity input for the encoder. -/
def demoRawActs : List Engine.RawActivity :=
  [⟨0, "A", 10, 1, 8, 10⟩]

/-- A well-formed run configuration. -/
def demoCfg : Engine.RunConfig :=
  ⟨5, 1 / 2, Transport.bicicleta⟩

/-- Scenario C of §8: activities A (value 10, duration 1, window 8-10,
Centro) and B (value 8, duration 1, window 9-12, Norte); combined travel
3/8 h (car), discouraged bicycle travel 1 h; budget 5, weight 1/2. -/
def scenarioC : Engine.Problem :=
  ⟨2, fun i => if i = 0 then 10 else 8, fun _ => 1, fun i => if i = 0 then 8 else 9,
   fun i => if i = 0 then 10 else 12, fun i j => if i = j then 0 else 3 / 8,
   fun i j => if i = j then 0 else 1, 5, 1 / 2⟩

/-- A problem whose single activity cannot fit its window (duration 2 in
window 8-9): no non-empty schedule is feasible. -/
def infeasibleProblem : Engine.Problem :=
  ⟨1, fun _ => 10, fun _ => 2, fun _ => 8, fun _ => 9, fun _ _ => 0, fun _ _ => 0, 5, 0⟩

/-- Reading entry (i, j) of a table built as a map over `List.range n`
returns the generating function's value, for in-range indices. -/
theorem mEntry_map_range (g : ℕ → ℕ → ℝ) {n i j : ℕ} (hi : i < n) (hj : j < n) :
    mEntry ((List.range n).map fun a => (List.range n).map fun b => g a b) i j = g i j := by
  have hi' : i < ((List.range n).map fun a => (List.range n).map fun b => g a b).length := by
    simpa using hi
  have hj' : j < ((List.range n).map fun b => g i b).length := by simpa using hj
  rw [mEntry, List.getD_eq_getElem _ _ hi', List.getElem_map, List.getElem_range,
    List.getD_eq_getElem _ _ hj', List.getElem_map, List.getElem_range]

/-- C1: for every ordered pair of zones and every transport mode,
`calculateTravelTime` equals the Euclidean distance between the two zones'
coordinates divided by that mode's speed, and equals 0 on a same-zone
pair; the mode speeds are bicycle 15, car 40, public transport 25 km/h. -/
theorem claim_C1_calculateTravelTime_euclidean :
    (∀ z1 z2 : Zone, ∀ m : Transport,
        calculateTravelTime z1 z2 m = specTravelTime z1 z2 m) ∧
      (∀ z : Zone, ∀ m : Transport, calculateTravelTime z z m = 0) ∧
      (TRANSPORT_TYPES Transport.bicicleta).speed = 15 ∧
      (TRANSPORT_TYPES Transport.auto).speed = 40 ∧
      (TRANSPORT_TYPES Transport.transporte_publico).speed = 25 := by
  refine ⟨?_, ?_, rfl, rfl, rfl⟩
  · intro z1 z2 m
    by_cases h : z1 = z2
    · subst h
      simp [calculateTravelTime, specTravelTime]
    · simp [calculateTravelTime, specTravelTime, h]
  · intro z m
    simp [calculateTravelTime]

/-- `calculateTravelTime` is symmetric in its two zones. -/
theorem calculateTravelTime_symm (z1 z2 : Zone) (m : Transport) :
    calculateTravelTime z1 z2 m = calculateTravelTime z2 z1 m := by
  by_cases h : z1 = z2
  · subst h; rfl
  · simp only [calculateTravelTime, if_neg h, if_neg (Ne.symm h)]
    have harg : ((ZONES z1).x - (ZONES z2).x) * ((ZONES z1).x - (ZONES z2).x) +
        ((ZONES z1).y - (ZONES z2).y) * ((ZONES z1).y - (ZONES z2).y) =
        ((ZONES z2).x - (ZONES z1).x) * ((ZONES z2).x - (ZONES z1).x) +
          ((ZONES z2).y - (ZONES z1).y) * ((ZONES z2).y - (ZONES z1).y) := by ring
    rw [harg]

/-- Entry formula for the bicycle matrix. -/
theorem travelTimeBicicleta_entry (acts : List Activity) {i j : ℕ}
    (hi : i < acts.length) (hj : j < acts.length) :
    mEntry (travelTimeBicicleta acts) i j =
      if i = j then 0
      else
        calculateTravelTime (acts.getD i default).zone (acts.getD j default).zone
          Transport.bicicleta :=
  mEntry_map_range
    (fun a b =>
      if a = b then 0
      else
        calculateTravelTime (acts.getD a default).zone (acts.getD b default).zone
          Transport.bicicleta)
    hi hj

/-- Entry formula for the car matrix. -/
theorem travelTimeAuto_entry (acts : List Activity) {i j : ℕ}
    (hi : i < acts.length) (hj : j < acts.length) :
    mEntry (travelTimeAuto acts) i j =
      if i = j then 0
      else
        calculateTravelTime (acts.getD i default).zone (acts.getD j default).zone
          Transport.auto :=
  mEntry_map_range
    (fun a b =>
      if a = b then 0
      else
        calculateTravelTime (acts.getD a default).zone (acts.getD b default).zone
          Transport.auto)
    hi hj

/-- Entry formula for the public-transport matrix. -/
theorem travelTimeTransportePublico_entry (acts : List Activity) {i j : ℕ}
    (hi : i < acts.length) (hj : j < acts.length) :
    mEntry (travelTimeTransportePublico acts) i j =
      if i = j then 0
      else
        calculateTravelTime (acts.getD i default).zone (acts.getD j default).zone
          Transport.transporte_publico :=
  mEntry_map_range
    (fun a b =>
      if a = b then 0
      else
        calculateTravelTime (acts.getD a default).zone (acts.getD b default).zone
          Transport.transporte_publico)
    hi hj

/-- Entry formula for the combined matrix. -/
theorem travelTime_entry (acts : List Activity) {i j : ℕ}
    (hi : i < acts.length) (hj : j < acts.length) :
    mEntry (travelTime acts) i j =
      if i = j then 0
      else
        min (mEntry (travelTimeBicicleta acts) i j)
          (min (mEntry (travelTimeAuto acts) i j)
            (mEntry (travelTimeTransportePublico acts) i j)) :=
  mEntry_map_range
    (fun a b =>
      if a = b then 0
      else
        min (mEntry (travelTimeBicicleta acts) a b)
          (min (mEntry (travelTimeAuto acts) a b)
            (mEntry (travelTimeTransportePublico acts) a b)))
    hi hj

/-- Among the three modes, the car (speed 40) always attains the minimum
travel time. -/
theorem min_travel_eq_auto (z1 z2 : Zone) :
    min (calculateTravelTime z1 z2 Transport.bicicleta)
      (min (calculateTravelTime z1 z2 Transport.auto)
        (calculateTravelTime z1 z2 Transport.transporte_publico)) =
      calculateTravelTime z1 z2 Transport.auto := by
  by_cases h : z1 = z2
  · subst h; simp [calculateTravelTime]
  · simp only [calculateTravelTime, if_neg h, TRANSPORT_TYPES]
    have hd : 0 ≤ Real.sqrt (((ZONES z1).x - (ZONES z2).x) * ((ZONES z1).x - (ZONES z2).x) +
        ((ZONES z1).y - (ZONES z2).y) * ((ZONES z1).y - (ZONES z2).y)) := Real.sqrt_nonneg _
    have h1 :
        Real.sqrt (((ZONES z1).x - (ZONES z2).x) * ((ZONES z1).x - (ZONES z2).x) +
            ((ZONES z1).y - (ZONES z2).y) * ((ZONES z1).y - (ZONES z2).y)) / 40 ≤
          Real.sqrt (((ZONES z1).x - (ZONES z2).x) * ((ZONES z1).x - (ZONES z2).x) +
              ((ZONES z1).y - (ZONES z2).y) * ((ZONES z1).y - (ZONES z2).y)) / 25 :=
      div_le_div_of_nonneg_left hd (by norm_num) (by norm_num)
    have h2 :
        Real.sqrt (((ZONES z1).x - (ZONES z2).x) * ((ZONES z1).x - (ZONES z2).x) +
            ((ZONES z1).y - (ZONES z2).y) * ((ZONES z1).y - (ZONES z2).y)) / 40 ≤
          Real.sqrt (((ZONES z1).x - (ZONES z2).x) * ((ZONES z1).x - (ZONES z2).x) +
              ((ZONES z1).y - (ZONES z2).y) * ((ZONES z1).y - (ZONES z2).y)) / 15 :=
      div_le_div_of_nonneg_left hd (by norm_num) (by norm_num)
    rw [min_eq_left h1, min_eq_right h2]

/-- C2: the combined matrix holds, at every off-diagonal position, exactly
the minimum of the bicycle, car and public-transport entries, and 0 on
the diagonal. -/
theorem claim_C2_combined_matrix_is_min :
    ∀ (acts : List Activity) (i j : ℕ), i < acts.length → j < acts.length →
      (i ≠ j →
          mEntry (travelTime acts) i j =
            min (mEntry (travelTimeBicicleta acts) i j)
              (min (mEntry (travelTimeAuto acts) i j)
                (mEntry (travelTimeTransportePublico acts) i j))) ∧
        mEntry (travelTime acts) i i = 0 := by
  intro acts i j hi hj
  constructor
  · intro hij
    rw [travelTime_entry acts hi hj, if_neg hij]
  · rw [travelTime_entry acts hi hi, if_pos rfl]

/-- Witness for C2 at a concrete two-activity list. -/
theorem claim_C2_combined_matrix_is_min_witness :
    (0 < demoActivities.length ∧ 1 < demoActivities.length ∧ (0 : ℕ) ≠ 1) ∧
      mEntry (travelTime demoActivities) 0 1 =
        min (mEntry (travelTimeBicicleta demoActivities) 0 1)
          (min (mEntry (travelTimeAuto demoActivities) 0 1)
            (mEntry (travelTimeTransportePublico demoActivities) 0 1)) ∧
      mEntry (travelTime demoActivities) 0 0 = 0 := by
  have hlen : demoActivities.length = 2 := by simp [demoActivities]
  have h := claim_C2_combined_matrix_is_min demoActivities 0 1
    (by simp [hlen]) (by simp [hlen])
  exact ⟨⟨by simp [hlen], by simp [hlen], by decide⟩, h.1 (by decide), h.2⟩

/-- Squareness, zero diagonal and symmetry for a table generated over
`List.range n` by a symmetric, zero-diagonal function. -/
theorem map_range_square_symm (g : ℕ → ℕ → ℝ) (n : ℕ)
    (hd : ∀ i, i < n → g i i = 0)
    (hg : ∀ i j, i < n → j < n → g i j = g j i) :
    (((List.range n).map fun a => (List.range n).map fun b => g a b).length = n) ∧
      (∀ row ∈ (List.range n).map fun a => (List.range n).map fun b => g a b,
        row.length = n) ∧
      (∀ i, i < n →
        mEntry ((List.range n).map fun a => (List.range n).map fun b => g a b) i i = 0) ∧
      (∀ i j, i < n → j < n →
        mEntry ((List.range n).map fun a => (List.range n).map fun b => g a b) i j =
          mEntry ((List.range n).map fun a => (List.range n).map fun b => g a b) j i) := by
  refine ⟨by simp, ?_, ?_, ?_⟩
  · intro row hrow
    rcases List.mem_map.mp hrow with ⟨a, _, rfl⟩
    simp
  · intro i hi
    rw [mEntry_map_range g hi hi]
    exact hd i hi
  · intro i j hi hj
    rw [mEntry_map_range g hi hj, mEntry_map_range g hj hi]
    exact hg i j hi hj

/-- The square/diagonal/symmetry properties for a per-mode matrix body. -/
theorem mode_matrix_props (acts : List Activity) (m : Transport) :
    (((List.range acts.length).map fun a =>
          (List.range acts.length).map fun b =>
            if a = b then 0
            else
              calculateTravelTime (acts.getD a default).zone (acts.getD b default).zone
                m).length = acts.length) ∧
      (∀ row ∈ (List.range acts.length).map fun a =>
          (List.range acts.length).map fun b =>
            if a = b then 0
            else
              calculateTravelTime (acts.getD a default).zone (acts.getD b default).zone m,
        row.length = acts.length) ∧
      (∀ i, i < acts.length →
        mEntry ((List.range acts.length).map fun a =>
          (List.range acts.length).map fun b =>
            if a = b then 0
            else
              calculateTravelTime (acts.getD a default).zone (acts.getD b default).zone m)
          i i = 0) ∧
      (∀ i j, i < acts.length → j < acts.length →
        mEntry ((List.range acts.length).map fun a =>
          (List.range acts.length).map fun b =>
            if a = b then 0
            else
              calculateTravelTime (acts.getD a default).zone (acts.getD b default).zone m)
          i j =
        mEntry ((List.range acts.length).map fun a =>
          (List.range acts.length).map fun b =>
            if a = b then 0
            else
              calculateTravelTime (acts.getD a default).zone (acts.getD b default).zone m)
          j i) := by
  refine map_range_square_symm _ acts.length (fun i _ => by simp) ?_
  intro a b _ _
  by_cases h : a = b
  · subst h; rfl
  · rw [if_neg h, if_neg (Ne.symm h), calculateTravelTime_symm]

/-- C3: all four request matrices are square with dimension `n`, have a
zero diagonal and are symmetric. -/
theorem claim_C3_matrices_square_zero_diag_symmetric :
    ∀ acts : List Activity,
      ∀ M ∈ [travelTime acts, travelTimeBicicleta acts, travelTimeAuto acts,
          travelTimeTransportePublico acts],
        M.length = acts.length ∧
          (∀ row ∈ M, row.length = acts.length) ∧
          (∀ i, i < acts.length → mEntry M i i = 0) ∧
          (∀ i j, i < acts.length → j < acts.length → mEntry M i j = mEntry M j i) := by
  intro acts M hM
  simp only [List.mem_cons, List.not_mem_nil, or_false] at hM
  rcases hM with rfl | rfl | rfl | rfl
  · refine map_range_square_symm
      (fun a b =>
        if a = b then 0
        else
          min (mEntry (travelTimeBicicleta acts) a b)
            (min (mEntry (travelTimeAuto acts) a b)
              (mEntry (travelTimeTransportePublico acts) a b)))
      acts.length (fun i _ => by simp) ?_
    intro a b ha hb
    by_cases h : a = b
    · subst h; rfl
    · simp only [if_neg h, if_neg (Ne.symm h)]
      rw [travelTimeBicicleta_entry acts ha hb, travelTimeBicicleta_entry acts hb ha,
        travelTimeAuto_entry acts ha hb, travelTimeAuto_entry acts hb ha,
        travelTimeTransportePublico_entry acts ha hb,
        travelTimeTransportePublico_entry acts hb ha]
      simp only [if_neg h, if_neg (Ne.symm h)]
      rw [calculateTravelTime_symm (acts.getD a default).zone (acts.getD b default).zone
          Transport.bicicleta,
        calculateTravelTime_symm (acts.getD a default).zone (acts.getD b default).zone
          Transport.auto,
        calculateTravelTime_symm (acts.getD a default).zone (acts.getD b default).zone
          Transport.transporte_publico]
  · exact mode_matrix_props acts Transport.bicicleta
  · exact mode_matrix_props acts Transport.auto
  · exact mode_matrix_props acts Transport.transporte_publico

/-- Witness for C3: symmetry instance of the combined matrix on the
concrete two-activity list. -/
theorem claim_C3_matrices_square_zero_diag_symmetric_witness :
    (travelTime demoActivities).length = demoActivities.length ∧
      mEntry (travelTime demoActivities) 0 1 = mEntry (travelTime demoActivities) 1 0 := by
  have h := claim_C3_matrices_square_zero_diag_symmetric demoActivities
    (travelTime demoActivities) (by simp)
  have hlen : demoActivities.length = 2 := by simp [demoActivities]
  exact ⟨h.1, h.2.2.2 0 1 (by simp [hlen]) (by simp [hlen])⟩

/-- C10: the combined matrix coincides entry-for-entry with the car
matrix, because the car is strictly the fastest mode. -/
theorem map_range_ext (g1 g2 : ℕ → ℕ → ℝ) (n : ℕ)
    (h : ∀ a b, a < n → b < n → g1 a b = g2 a b) :
    ((List.range n).map fun a => (List.range n).map fun b => g1 a b) =
      ((List.range n).map fun a => (List.range n).map fun b => g2 a b) := by
  apply List.map_congr_left
  intro a ha
  apply List.map_congr_left
  intro b hb
  exact h a b (List.mem_range.mp ha) (List.mem_range.mp hb)

/-- C10: the combined matrix coincides entry-for-entry with the car
matrix, because the car is strictly the fastest mode. -/
theorem claim_C10_combined_equals_auto :
    ∀ acts : List Activity, travelTime acts = travelTimeAuto acts := by
  intro acts
  refine map_range_ext
    (fun a b =>
      if a = b then 0
      else
        min (mEntry (travelTimeBicicleta acts) a b)
          (min (mEntry (travelTimeAuto acts) a b)
            (mEntry (travelTimeTransportePublico acts) a b)))
    (fun a b =>
      if a = b then 0
      else
        calculateTravelTime (acts.getD a default).zone (acts.getD b default).zone
          Transport.auto)
    acts.length ?_
  intro a b ha hb
  by_cases h : a = b
  · simp [h]
  · simp only [if_neg h]
    rw [travelTimeBicicleta_entry acts ha hb, travelTimeAuto_entry acts ha hb,
      travelTimeTransportePublico_entry acts ha hb]
    simp only [if_neg h]
    exact min_travel_eq_auto _ _

/-- Counterexample to C4: after add, add, delete 0, add, the UI activity
list holds two activities that share id 1 — ids in the list are not
unique. -/
theorem claim_C4_counterexample_duplicate_ids :
    (uiListAfterOps.map fun a => a.id) = [1, 1] ∧
      ¬ (uiListAfterOps.map fun a => a.id).Nodup := by
  have h : (uiListAfterOps.map fun a => a.id) = [1, 1] := by
    simp [uiListAfterOps, handleAddActivity, handleDeleteActivity, filledForm, formComplete]
  exact ⟨h, by rw [h]; decide⟩

/-- C4 (amended): the ids of the request body built by `handleCalculate`
are the consecutive positions 0..n-1 and are therefore unique, for every
UI activity list (even one holding duplicate ids). -/
theorem claim_C4_amended_request_ids_unique :
    ∀ activities : List Activity,
      ((reindexedActivities activities).map fun a => a.id) =
          List.range activities.length ∧
        ((reindexedActivities activities).map fun a => a.id).Nodup := by
  intro activities
  have h : ((reindexedActivities activities).map fun a => a.id) =
      List.range activities.length := by
    rw [reindexedActivities, List.mapIdx_eq_enum_map, List.map_map]
    have hfun : ((fun a : RequestActivity => a.id) ∘
        Function.uncurry fun (idx : ℕ) (act : Activity) =>
          RequestActivity.mk idx act.name act.value act.duration act.open_time
            act.close_time) = Prod.fst := by
      funext p
      rfl
    rw [hfun, List.enum_map_fst]
  exact ⟨h, h ▸ List.nodup_range activities.length⟩

namespace Engine

/-- `activityValid` holds iff all three §4.1 per-activity conditions do. -/
theorem activityValid_true_iff (a : RawActivity) :
    activityValid a = true ↔
      a.open_time < a.close_time ∧ 0 < a.duration ∧
        a.duration ≤ a.close_time - a.open_time := by
  simp [activityValid, and_assoc]

/-- `activityValid` fails iff one of the §4.1 rejection conditions holds. -/
theorem activityValid_false_iff (a : RawActivity) :
    activityValid a = false ↔
      a.close_time ≤ a.open_time ∨ a.duration ≤ 0 ∨
        a.close_time - a.open_time < a.duration := by
  rw [Bool.eq_false_iff, Ne, activityValid_true_iff, not_and_or, not_and_or, not_lt,
    not_lt, not_le]

/-- `configValid` holds iff both §4.1 RunConfig conditions do. -/
theorem configValid_true_iff (c : RunConfig) :
    configValid c = true ↔ 0 < c.time_budget ∧ 0 ≤ c.weight := by
  simp [configValid]

/-- `configValid` fails iff one of the §4.1 rejection conditions holds. -/
theorem configValid_false_iff (c : RunConfig) :
    configValid c = false ↔ c.time_budget ≤ 0 ∨ c.weight < 0 := by
  rw [Bool.eq_false_iff, Ne, configValid_true_iff, not_and_or, not_lt, not_le]

/-- The fold by `chooseBest` returns its seed or a list element. -/
theorem foldl_chooseBest_mem (p : Problem) :
    ∀ (l : List (List ℕ)) (z : List ℕ),
      l.foldl (chooseBest p) z = z ∨ l.foldl (chooseBest p) z ∈ l := by
  intro l
  induction l with
  | nil => intro z; left; rfl
  | cons a t ih =>
    intro z
    rw [List.foldl_cons]
    rcases ih (chooseBest p z a) with h | h
    · rw [h]
      unfold chooseBest
      by_cases hc : schedKey p a < schedKey p z
      · right; simp [hc]
      · left; simp [hc]
    · right; exact List.mem_cons_of_mem _ h

/-- The fold by `chooseBest` never worsens the key of its seed. -/
theorem foldl_chooseBest_key_le (p : Problem) :
    ∀ (l : List (List ℕ)) (z : List ℕ),
      schedKey p (l.foldl (chooseBest p) z) ≤ schedKey p z := by
  intro l
  induction l with
  | nil => intro z; exact le_refl _
  | cons a t ih =>
    intro z
    rw [List.foldl_cons]
    refine le_trans (ih (chooseBest p z a)) ?_
    unfold chooseBest
    by_cases hc : schedKey p a < schedKey p z
    · simp only [if_pos hc]; exact le_of_lt hc
    · simp only [if_neg hc]; exact le_refl _

/-- Every sequence the enumerator produces draws from `avail`. -/
theorem seqsFrom_subset :
    ∀ (fuel : ℕ) (avail : List ℕ), ∀ s ∈ seqsFrom avail fuel, s ⊆ avail := by
  intro fuel
  induction fuel with
  | zero =>
    intro avail s hs
    simp [seqsFrom] at hs
    subst hs
    exact List.nil_subset avail
  | succ f ih =>
    intro avail s hs
    rw [seqsFrom] at hs
    rcases List.mem_cons.mp hs with rfl | hs
    · exact List.nil_subset avail
    · rcases List.mem_flatMap.mp hs with ⟨q, hq, hsq⟩
      rcases List.mem_map.mp hsq with ⟨s0, hs0, rfl⟩
      exact List.cons_subset.mpr
        ⟨hq, (ih (avail.erase q) s0 hs0).trans (List.erase_subset _ _)⟩

/-- Every sequence the enumerator produces from a duplicate-free pool is
duplicate-free. -/
theorem seqsFrom_nodup :
    ∀ (fuel : ℕ) (avail : List ℕ), avail.Nodup → ∀ s ∈ seqsFrom avail fuel, s.Nodup := by
  intro fuel
  induction fuel with
  | zero =>
    intro avail _ s hs
    simp [seqsFrom] at hs
    subst hs
    exact List.nodup_nil
  | succ f ih =>
    intro avail hav s hs
    rw [seqsFrom] at hs
    rcases List.mem_cons.mp hs with rfl | hs
    · exact List.nodup_nil
    · rcases List.mem_flatMap.mp hs with ⟨q, _, hsq⟩
      rcases List.mem_map.mp hsq with ⟨s0, hs0, rfl⟩
      refine List.nodup_cons.mpr ⟨?_, ih (avail.erase q) (hav.erase q) s0 hs0⟩
      intro hmem
      have : q ∈ avail.erase q := seqsFrom_subset f (avail.erase q) s0 hs0 hmem
      exact ((hav.mem_erase_iff).mp this).1 rfl

/-- Every candidate schedule is duplicate-free. -/
theorem candidates_nodup (p : Problem) : ∀ s ∈ candidates p, s.Nodup :=
  seqsFrom_nodup p.n (List.range p.n) (List.nodup_range p.n)

/-- The empty schedule is always among the candidates. -/
theorem nil_mem_candidates (p : Problem) : [] ∈ candidates p := by
  cases hn : p.n with
  | zero => simp [candidates, hn, seqsFrom]
  | succ k => simp [candidates, hn, seqsFrom]

/-- The schedule the search returns is feasible. -/
theorem runSearch_feasible (p : Problem) : feasible p (runSearch p) = true := by
  unfold runSearch
  rcases foldl_chooseBest_mem p ((candidates p).filter fun s => feasible p s) [] with h | h
  · rw [h]; rfl
  · exact (List.mem_filter.mp h).2

/-- The schedule the search returns is duplicate-free. -/
theorem runSearch_nodup (p : Problem) : (runSearch p).Nodup := by
  unfold runSearch
  rcases foldl_chooseBest_mem p ((candidates p).filter fun s => feasible p s) [] with h | h
  · rw [h]; exact List.nodup_nil
  · exact candidates_nodup p _ (List.mem_filter.mp h).1

/-- Along a feasible suffix, every activity starts no earlier than its
opening and no later than its closing minus its duration. -/
theorem startsFrom_window (p : Problem) :
    ∀ (qs : List ℕ) (last : ℕ) (s t : ℚ), feasibleFrom p last s t qs = true →
      ∀ i, i < qs.length →
        p.openT (qs.getD i 0) ≤ (startsFrom p last t qs).getD i 0 ∧
          (startsFrom p last t qs).getD i 0 ≤
            p.closeT (qs.getD i 0) - p.dur (qs.getD i 0) := by
  intro qs
  induction qs with
  | nil => intro last s t _ i hi; simp at hi
  | cons q rest ih =>
    intro last s t h i hi
    rw [feasibleFrom] at h
    simp only [Bool.and_eq_true, decide_eq_true_eq] at h
    obtain ⟨⟨hclose, _⟩, hrest⟩ := h
    cases i with
    | zero =>
      rw [startsFrom]
      refine ⟨le_max_right _ _, ?_⟩
      simp only [List.getD_cons_zero]
      linarith
    | succ i =>
      rw [startsFrom]
      simp only [List.getD_cons_succ]
      exact ih q s _ hrest i (by simpa using hi)

/-- Windows hold along any feasible schedule. -/
theorem feasible_window (p : Problem) (sch : List ℕ) (h : feasible p sch = true) :
    ∀ i, i < sch.length →
      p.openT (sch.getD i 0) ≤ (startTimes p sch).getD i 0 ∧
        (startTimes p sch).getD i 0 ≤
          p.closeT (sch.getD i 0) - p.dur (sch.getD i 0) := by
  cases sch with
  | nil => intro i hi; simp at hi
  | cons q rest =>
    rw [feasible] at h
    simp only [Bool.and_eq_true, decide_eq_true_eq] at h
    obtain ⟨⟨hclose, _⟩, hrest⟩ := h
    intro i hi
    cases i with
    | zero =>
      rw [startTimes]
      refine ⟨le_max_right _ _, ?_⟩
      simp only [List.getD_cons_zero]
      linarith
    | succ i =>
      rw [startTimes]
      simp only [List.getD_cons_succ]
      exact startsFrom_window p rest q (max 0 (p.openT q)) _ hrest i (by simpa using hi)

/-- Along a feasible suffix, the final wall-clock time stays within the
budget measured from the first start `s`. -/
theorem execFrom_elapsed_le (p : Problem) :
    ∀ (qs : List ℕ) (last : ℕ) (s t : ℚ), t - s ≤ p.tmax →
      feasibleFrom p last s t qs = true → execFrom p last t qs - s ≤ p.tmax := by
  intro qs
  induction qs with
  | nil => intro last s t h0 _; rw [execFrom]; exact h0
  | cons q rest ih =>
    intro last s t _ h
    rw [feasibleFrom] at h
    simp only [Bool.and_eq_true, decide_eq_true_eq] at h
    obtain ⟨⟨_, hbudget⟩, hrest⟩ := h
    rw [execFrom]
    exact ih q s _ hbudget hrest

/-- The elapsed time of any feasible schedule is within the budget. -/
theorem feasible_finalTime_le (p : Problem) (sch : List ℕ) (hpos : 0 < p.tmax)
    (h : feasible p sch = true) : finalTime p sch ≤ p.tmax := by
  cases sch with
  | nil =>
    rw [finalTime, wallEnd, firstStart]
    simpa using le_of_lt hpos
  | cons q rest =>
    rw [feasible] at h
    simp only [Bool.and_eq_true, decide_eq_true_eq] at h
    obtain ⟨⟨_, hbudget⟩, hrest⟩ := h
    rw [finalTime, wallEnd, firstStart]
    exact execFrom_elapsed_le p rest q (max 0 (p.openT q)) _ hbudget hrest

/-- The wall-clock end decomposes as start time plus travel plus
durations plus waits. -/
theorem execFrom_decomp (p : Problem) :
    ∀ (qs : List ℕ) (last : ℕ) (t : ℚ),
      execFrom p last t qs =
        t + ((pairsOf (last :: qs)).map fun e => p.travel e.1 e.2).sum +
          (qs.map p.dur).sum + (waitsFrom p last t qs).sum := by
  intro qs
  induction qs with
  | nil => intro last t; simp [execFrom, pairsOf, waitsFrom]
  | cons q rest ih =>
    intro last t
    rw [execFrom, ih q (max (t + p.travel last q) (p.openT q) + p.dur q), waitsFrom]
    have hpair : pairsOf (last :: q :: rest) = (last, q) :: pairsOf (q :: rest) := rfl
    rw [hpair]
    simp only [List.map_cons, List.sum_cons]
    ring

/-- The elapsed time of any schedule is the sum of its travel times, its
durations and its waits. -/
theorem finalTime_decomp (p : Problem) (sch : List ℕ) :
    finalTime p sch =
      totalTravel p sch + (sch.map p.dur).sum + (waitTimes p sch).sum := by
  cases sch with
  | nil => simp [finalTime, wallEnd, firstStart, totalTravel, pairsOf, waitTimes]
  | cons q rest =>
    rw [finalTime, wallEnd, firstStart, waitTimes, totalTravel,
      execFrom_decomp p rest q (max 0 (p.openT q) + p.dur q)]
    have hpair : pairsOf (q :: rest) = pairsOf (q :: rest) := rfl
    simp only [List.map_cons, List.sum_cons]
    ring

/-- The empty schedule has objective 0. -/
theorem objective_nil (p : Problem) : objective p [] = 0 := by
  simp [objective, totalValue, discExposure, pairsOf]

/-- The comparison key is injective: it carries the id sequence itself. -/
theorem schedKey_inj (p : Problem) {a b : List ℕ} (h : schedKey p a = schedKey p b) :
    a = b := by
  rw [schedKey, schedKey] at h
  have h1 := toLex_inj.mp h
  have h2 := congrArg Prod.snd h1
  have h3 := toLex_inj.mp h2
  exact congrArg Prod.snd h3

/-- Two-step commutation of `chooseBest`, strict case. -/
theorem chooseBest_comm_lt (p : Problem) (z : List ℕ) {a b : List ℕ}
    (hab : schedKey p a < schedKey p b) :
    chooseBest p (chooseBest p z a) b = chooseBest p (chooseBest p z b) a := by
  unfold chooseBest
  by_cases h1 : schedKey p a < schedKey p z
  · by_cases h2 : schedKey p b < schedKey p z
    · simp only [if_pos h1, if_pos h2, if_neg (asymm hab), if_pos hab]
    · simp only [if_pos h1, if_neg h2, if_neg (asymm hab)]
  · have h2 : ¬schedKey p b < schedKey p z := fun hbz => h1 (lt_trans hab hbz)
    simp only [if_neg h1, if_neg h2]

/-- Two-step commutation of `chooseBest`. -/
theorem chooseBest_comm (p : Problem) (z a b : List ℕ) :
    chooseBest p (chooseBest p z a) b = chooseBest p (chooseBest p z b) a := by
  rcases lt_trichotomy (schedKey p a) (schedKey p b) with h | h | h
  · exact chooseBest_comm_lt p z h
  · rw [schedKey_inj p h]
  · exact (chooseBest_comm_lt p z h).symm

/-- The fold by `chooseBest` is invariant under permutation of the
candidate list: the §4.2 tie-breaks make the selection independent of
exploration order. -/
theorem foldl_chooseBest_perm (p : Problem) {l1 l2 : List (List ℕ)} (h : l1.Perm l2) :
    ∀ z, l1.foldl (chooseBest p) z = l2.foldl (chooseBest p) z := by
  induction h with
  | nil => intro z; rfl
  | cons x _ ih =>
    intro z
    rw [List.foldl_cons, List.foldl_cons]
    exact ih _
  | swap x y l =>
    intro z
    rw [List.foldl_cons, List.foldl_cons, List.foldl_cons, List.foldl_cons,
      chooseBest_comm]
  | trans _ _ ih1 ih2 => intro z; exact (ih1 z).trans (ih2 z)

/-- If every element of the list is the empty schedule, the fold returns
the empty schedule. -/
theorem foldl_chooseBest_all_nil (p : Problem) :
    ∀ l : List (List ℕ), (∀ x ∈ l, x = ([] : List ℕ)) →
      l.foldl (chooseBest p) [] = [] := by
  intro l
  induction l with
  | nil => intro _; rfl
  | cons a t ih =>
    intro h
    rw [List.foldl_cons, h a (List.mem_cons_self a t)]
    have hnil : chooseBest p [] [] = ([] : List ℕ) := by
      unfold chooseBest
      simp [lt_irrefl]
    rw [hnil]
    exact ih fun x hx => h x (List.mem_cons_of_mem a hx)

end Engine

/-- C5: the Problem Encoder fails with a Validation error exactly on
inputs containing an activity with `close_time ≤ open_time`, or
`duration ≤ 0`, or duration exceeding its window, or a RunConfig with
`time_budget ≤ 0` or `weight < 0`; on all other inputs it succeeds and
its only effect is producing the problem instance. -/
theorem claim_C5_encoder_validation :
    ∀ (acts : List Engine.RawActivity) (combined discouraged : ℕ → ℕ → ℚ)
      (cfg : Engine.RunConfig),
      ((∃ e, Engine.encodeProblem acts combined discouraged cfg = Except.error e) ↔
          ((∃ a ∈ acts,
              a.close_time ≤ a.open_time ∨ a.duration ≤ 0 ∨
                a.close_time - a.open_time < a.duration) ∨
            cfg.time_budget ≤ 0 ∨ cfg.weight < 0)) ∧
        (((∀ a ∈ acts,
              a.open_time < a.close_time ∧ 0 < a.duration ∧
                a.duration ≤ a.close_time - a.open_time) ∧
            0 < cfg.time_budget ∧ 0 ≤ cfg.weight) →
          Engine.encodeProblem acts combined discouraged cfg =
            Except.ok ⟨acts, combined, discouraged, cfg⟩) := by
  intro acts combined discouraged cfg
  constructor
  · constructor
    · rintro ⟨e, he⟩
      cases hf : acts.find? fun a => !Engine.activityValid a with
      | some a =>
        left
        refine ⟨a, List.mem_of_find?_eq_some hf, ?_⟩
        have hpa := List.find?_some hf
        rw [← Engine.activityValid_false_iff]
        simpa using hpa
      | none =>
        right
        rw [← Engine.configValid_false_iff]
        by_cases hc : Engine.configValid cfg
        · simp [Engine.encodeProblem, hf, hc] at he
        · simpa using hc
    · rintro (⟨a, ha, hbad⟩ | hcfg)
      · cases hf : acts.find? fun x => !Engine.activityValid x with
        | some b =>
          exact ⟨Engine.EncodeError.invalidActivity b.id, by simp [Engine.encodeProblem, hf]⟩
        | none =>
          exfalso
          have hgood := List.find?_eq_none.mp hf a ha
          rw [← Engine.activityValid_false_iff] at hbad
          simp [hbad] at hgood
      · cases hf : acts.find? fun x => !Engine.activityValid x with
        | some b =>
          exact ⟨Engine.EncodeError.invalidActivity b.id, by simp [Engine.encodeProblem, hf]⟩
        | none =>
          refine ⟨Engine.EncodeError.invalidConfig, ?_⟩
          have hc : Engine.configValid cfg = false := (Engine.configValid_false_iff cfg).mpr hcfg
          simp [Engine.encodeProblem, hf, hc]
  · rintro ⟨hall, ht, hw⟩
    have hf : (acts.find? fun x => !Engine.activityValid x) = none :=
      List.find?_eq_none.mpr fun x hx => by
        simp [(Engine.activityValid_true_iff x).mpr (hall x hx)]
    have hc : Engine.configValid cfg = true := (Engine.configValid_true_iff cfg).mpr ⟨ht, hw⟩
    simp [Engine.encodeProblem, hf, hc]

/-- C6: every schedule the Search Engine returns satisfies the §3
invariants: no duplicate activity id; each activity starts within
[open_time, close_time − duration] (waiting when arriving early, the
wait counting toward elapsed time, as the travel + durations + waits
decomposition states); and the elapsed time is within the budget. -/
theorem claim_C6_returned_schedule_invariants :
    ∀ p : Engine.Problem, 0 < p.tmax →
      (Engine.runSearch p).Nodup ∧
        (∀ i, i < (Engine.runSearch p).length →
          p.openT ((Engine.runSearch p).getD i 0) ≤
              (Engine.startTimes p (Engine.runSearch p)).getD i 0 ∧
            (Engine.startTimes p (Engine.runSearch p)).getD i 0 ≤
              p.closeT ((Engine.runSearch p).getD i 0) -
                p.dur ((Engine.runSearch p).getD i 0)) ∧
        Engine.finalTime p (Engine.runSearch p) =
          Engine.totalTravel p (Engine.runSearch p) +
            ((Engine.runSearch p).map p.dur).sum +
            (Engine.waitTimes p (Engine.runSearch p)).sum ∧
        Engine.finalTime p (Engine.runSearch p) ≤ p.tmax := by
  intro p hpos
  refine ⟨Engine.runSearch_nodup p, ?_, Engine.finalTime_decomp p _, ?_⟩
  · exact Engine.feasible_window p _ (Engine.runSearch_feasible p)
  · exact Engine.feasible_finalTime_le p _ hpos (Engine.runSearch_feasible p)

/-- C7: on well-formed input the returned objective is at least 0 (the
empty schedule is always a candidate), and an input admitting no
feasible non-empty schedule is not an error: the engine returns the
empty schedule's all-zero metrics. -/
theorem claim_C7_objective_nonneg_empty_fallback :
    ∀ p : Engine.Problem, 0 < p.tmax → 0 ≤ p.weight →
      0 ≤ (Engine.runEngine p).objective ∧
        ((∀ s ∈ Engine.candidates p, s ≠ [] → Engine.feasible p s = false) →
          Engine.runSearch p = [] ∧ Engine.runEngine p = ⟨0, 0, 0, 0, 0, []⟩) := by
  intro p _ _
  constructor
  · have hkey := Engine.foldl_chooseBest_key_le p
      ((Engine.candidates p).filter fun s => Engine.feasible p s) []
    have hrs : Engine.schedKey p (Engine.runSearch p) ≤ Engine.schedKey p [] := hkey
    rw [Engine.schedKey, Engine.schedKey, Prod.Lex.le_iff] at hrs
    have hfst : -Engine.objective p (Engine.runSearch p) ≤ -Engine.objective p [] := by
      rcases hrs with h | h
      · exact le_of_lt h
      · exact le_of_eq h.1
    rw [Engine.objective_nil] at hfst
    have : 0 ≤ Engine.objective p (Engine.runSearch p) := by linarith
    simpa [Engine.runEngine, Engine.buildResult] using this
  · intro hnone
    have hall : ∀ x ∈ (Engine.candidates p).filter fun s => Engine.feasible p s,
        x = ([] : List ℕ) := by
      intro x hx
      rcases List.mem_filter.mp hx with ⟨hc, hf⟩
      by_contra hne
      rw [hnone x hc hne] at hf
      exact Bool.false_ne_true hf
    have hrs : Engine.runSearch p = [] := Engine.foldl_chooseBest_all_nil p _ hall
    refine ⟨hrs, ?_⟩
    rw [Engine.runEngine, hrs]
    simp [Engine.buildResult, Engine.totalValue, Engine.totalTravel, Engine.discExposure,
      Engine.finalTime, Engine.wallEnd, Engine.firstStart, Engine.objective,
      Engine.pairsOf]

/-- C8: the engine is deterministic — a rerun on identical input yields
the identical response, and the selection among candidate schedules does
not depend on the order in which the search explores them (permuting the
explored list leaves the result unchanged, by the total tie-break). -/
theorem claim_C8_determinism :
    ∀ p : Engine.Problem,
      Engine.runEngine p = Engine.runEngine p ∧
        ∀ l1 l2 : List (List ℕ), l1.Perm l2 →
          l1.foldl (Engine.chooseBest p) [] = l2.foldl (Engine.chooseBest p) [] := by
  intro p
  exact ⟨rfl, fun l1 l2 h => Engine.foldl_chooseBest_perm p h []⟩

/-- Witness for C6: invariants instantiated on the Scenario C problem. -/
theorem claim_C6_returned_schedule_invariants_witness :
    (Engine.runSearch scenarioC).Nodup ∧
      Engine.finalTime scenarioC (Engine.runSearch scenarioC) ≤ scenarioC.tmax := by
  have h := claim_C6_returned_schedule_invariants scenarioC (by norm_num [scenarioC])
  exact ⟨h.1, h.2.2.2⟩

/-- Witness for C7: non-negative objective on a concrete problem with no
feasible non-empty schedule. -/
theorem claim_C7_objective_nonneg_empty_fallback_witness :
    0 ≤ (Engine.runEngine infeasibleProblem).objective :=
  (claim_C7_objective_nonneg_empty_fallback infeasibleProblem
    (by norm_num [infeasibleProblem]) (by norm_num [infeasibleProblem])).1

/-- Witness for C8: two concrete exploration orders of the same
candidates give the same selection. -/
theorem claim_C8_determinism_witness :
    [[0], [1]].foldl (Engine.chooseBest scenarioC) [] =
      [[1], [0]].foldl (Engine.chooseBest scenarioC) [] :=
  (claim_C8_determinism scenarioC).2 [[0], [1]] [[1], [0]] (List.Perm.swap [1] [0] [])

/-- C9: on Scenario C the engine visits both activities in order A, B
with elapsed time 2.375 h, total value 18, discouraged (bicycle)
exposure 1 h and objective 17.5; the combined and bicycle travel values
are the ones `calculateTravelTime` yields for Centro-Norte. -/
theorem claim_C9_scenario_C :
    Engine.runSearch scenarioC = [0, 1] ∧
      (Engine.runEngine scenarioC).final_time = 2.375 ∧
      (Engine.runEngine scenarioC).total_value = 18 ∧
      (Engine.runEngine scenarioC).penalized_travel_cost = 1 ∧
      (Engine.runEngine scenarioC).objective = 17.5 ∧
      calculateTravelTime Zone.Centro Zone.Norte Transport.auto = 3 / 8 ∧
      calculateTravelTime Zone.Centro Zone.Norte Transport.bicicleta = 1 := by
  have hsqrt : Real.sqrt (((ZONES Zone.Centro).x - (ZONES Zone.Norte).x) *
      ((ZONES Zone.Centro).x - (ZONES Zone.Norte).x) +
      ((ZONES Zone.Centro).y - (ZONES Zone.Norte).y) *
        ((ZONES Zone.Centro).y - (ZONES Zone.Norte).y)) = 15 := by
    have harg : ((ZONES Zone.Centro).x - (ZONES Zone.Norte).x) *
        ((ZONES Zone.Centro).x - (ZONES Zone.Norte).x) +
        ((ZONES Zone.Centro).y - (ZONES Zone.Norte).y) *
          ((ZONES Zone.Centro).y - (ZONES Zone.Norte).y) = 15 ^ 2 := by
      norm_num [ZONES]
    rw [harg, Real.sqrt_sq]
    norm_num
  have hfilter : (Engine.candidates scenarioC).filter
      (fun s => Engine.feasible scenarioC s) = [[], [0], [0, 1], [1]] := by
    norm_num [Engine.candidates, Engine.seqsFrom, Engine.feasible, Engine.feasibleFrom,
      scenarioC, max_def, List.filter]
  have h1 : Engine.chooseBest scenarioC [] [] = [] := by simp [Engine.chooseBest]
  have h2 : Engine.chooseBest scenarioC [] [0] = [0] := by
    rw [Engine.chooseBest, if_pos]
    rw [Engine.schedKey, Engine.schedKey, Prod.Lex.lt_iff]
    left
    norm_num [Engine.objective, Engine.totalValue, Engine.discExposure, Engine.pairsOf,
      scenarioC]
  have h3 : Engine.chooseBest scenarioC [0] [0, 1] = [0, 1] := by
    rw [Engine.chooseBest, if_pos]
    rw [Engine.schedKey, Engine.schedKey, Prod.Lex.lt_iff]
    left
    norm_num [Engine.objective, Engine.totalValue, Engine.discExposure, Engine.pairsOf,
      scenarioC]
  have h4 : Engine.chooseBest scenarioC [0, 1] [1] = [0, 1] := by
    rw [Engine.chooseBest, if_neg]
    rw [Engine.schedKey, Engine.schedKey, Prod.Lex.lt_iff]
    push_neg
    constructor
    · norm_num [Engine.objective, Engine.totalValue, Engine.discExposure, Engine.pairsOf,
        scenarioC]
    · intro h
      exfalso
      norm_num [Engine.objective, Engine.totalValue, Engine.discExposure, Engine.pairsOf,
        scenarioC] at h
  have hrs : Engine.runSearch scenarioC = [0, 1] := by
    rw [Engine.runSearch, hfilter]
    simp only [List.foldl_cons, List.foldl_nil, h1, h2, h3, h4]
  refine ⟨hrs, ?_, ?_, ?_, ?_, ?_, ?_⟩
  · rw [Engine.runEngine, hrs]
    show Engine.finalTime scenarioC [0, 1] = 2.375
    norm_num [Engine.finalTime, Engine.wallEnd, Engine.firstStart, Engine.execFrom,
      scenarioC, max_def]
  · rw [Engine.runEngine, hrs]
    show Engine.totalValue scenarioC [0, 1] = 18
    norm_num [Engine.totalValue, scenarioC]
  · rw [Engine.runEngine, hrs]
    show Engine.discExposure scenarioC [0, 1] = 1
    norm_num [Engine.discExposure, Engine.pairsOf, scenarioC]
  · rw [Engine.runEngine, hrs]
    show Engine.objective scenarioC [0, 1] = 17.5
    norm_num [Engine.objective, Engine.totalValue, Engine.discExposure, Engine.pairsOf,
      scenarioC]
  · rw [calculateTravelTime]
    rw [if_neg (by decide : ¬ (Zone.Centro = Zone.Norte))]
    simp only [hsqrt]
    norm_num [TRANSPORT_TYPES]
  · rw [calculateTravelTime]
    rw [if_neg (by decide : ¬ (Zone.Centro = Zone.Norte))]
    simp only [hsqrt]
    norm_num [TRANSPORT_TYPES]

/-- Witness for C5: the encoder accepts a concrete well-formed input. -/
theorem claim_C5_encoder_validation_witness :
    Engine.encodeProblem demoRawActs (fun _ _ => 0) (fun _ _ => 0) demoCfg =
      Except.ok ⟨demoRawActs, fun _ _ => 0, fun _ _ => 0, demoCfg⟩ :=
  (claim_C5_encoder_validation demoRawActs (fun _ _ => 0) (fun _ _ => 0) demoCfg).2
    (by
      constructor
      · intro a ha
        have : a = (⟨0, "A", 10, 1, 8, 10⟩ : Engine.RawActivity) := by
          simpa [demoRawActs] using ha
        subst this
        refine ⟨by norm_num, by norm_num, by norm_num⟩
      · exact ⟨by norm_num [demoCfg], by norm_num [demoCfg]⟩)
